import Mathlib

/-!
Shallow embedding of the three CLI agents of the `ai-sdlc-example`
repository (`go_architect.py`, `go_engineer_reviewer.py`, `go_tester.py`):
file discovery, per-file rendering, context assembly, the single external
dispatch, and output routing, each translated from the Python source.
-/

/-- A snapshot of the file system: the paths the recursive walk visits, each
mapped to its content (`Except.ok`) or to the exception message a read of it
raises (`Except.error`). A path absent from `entries` does not exist. -/
structure FileSystem where
  entries : List (String × Except String String)

/-- The paths of the walk, in walk order (the order `Path.rglob` yields). -/
def fsPaths (fs : FileSystem) : List String := fs.entries.map Prod.fst

/-- Opening and reading a file: content on success, exception text on failure;
opening a path that does not exist raises a not-found error. -/
def readFS (fs : FileSystem) (p : String) : Except String String :=
  match fs.entries.lookup p with
  | some r => r
  | none => Except.error ("No such file or directory: " ++ p)

/-- `os.path.exists`: true for any present path, readable or not. -/
def pathExists (fs : FileSystem) (p : String) : Bool :=
  (fsPaths fs).contains p

/-- `matchFront pat s` is true when the character list `pat` is an initial
segment of `s` (Python `s.startswith(pat)` at the character level). -/
def matchFront : List Char → List Char → Bool
  | [], _ => true
  | _ :: _, [] => false
  | p :: ps, c :: cs => p == c && matchFront ps cs

/-- Occurrence of `pat` as a contiguous segment anywhere in the list. -/
def hasSubL (pat : List Char) : List Char → Bool
  | [] => matchFront pat []
  | c :: cs => matchFront pat (c :: cs) || hasSubL pat cs

/-- Python `pat in s` substring test. -/
def strHas (s pat : String) : Bool := hasSubL pat.data s.data

/-- Python `s.startswith(pat)`. -/
def pyStartsWith (s pat : String) : Bool := matchFront pat.data s.data

/-- Python `s.endswith(pat)`; also the semantics of an `rglob` pattern of the
form `*suffix` on a path. -/
def pyEndsWith (s pat : String) : Bool :=
  matchFront pat.data.reverse s.data.reverse

/-- The whitespace characters Python `str.strip` removes. -/
def pyIsSpace (c : Char) : Bool :=
  c == ' ' || c == '\t' || c == '\n' || c == '\x0b' || c == '\x0c' || c == '\r'

/-- Drop leading whitespace from a character list. -/
def dropSpace : List Char → List Char
  | [] => []
  | c :: cs => if pyIsSpace c then dropSpace cs else c :: cs

/-- Python `s.strip()`: whitespace removed from both ends. -/
def pyStrip (s : String) : String :=
  ⟨(dropSpace ((dropSpace s.data).reverse)).reverse⟩

/-- Split a character list at each newline, Python `s.split("\n")`. -/
def splitLines : List Char → List (List Char)
  | [] => [[]]
  | c :: cs =>
    match splitLines cs with
    | [] => [[]]
    | r :: rs => if c == '\n' then [] :: r :: rs else (c :: r) :: rs

/-- Python `s.split("\n")` on strings. -/
def pySplitNL (s : String) : List String := (splitLines s.data).map String.mk

/-- Lexicographic comparison of character lists by code point, the order
Python uses to compare strings. -/
def lexLe : List Char → List Char → Bool
  | [], _ => true
  | _ :: _, [] => false
  | a :: as, b :: bs =>
    if a.toNat < b.toNat then true
    else if b.toNat < a.toNat then false
    else lexLe as bs

/-- Python `s <= t` on strings: lexicographic by code point. -/
def strLe (a b : String) : Bool := lexLe a.data b.data

/-- The sorting relation of `sorted` as a proposition. -/
def sLe (a b : String) : Prop := strLe a b = true

instance : DecidableRel sLe := fun a b => instDecidableEqBool (strLe a b) true

/-- Python `sorted` on path strings: a stable sort by the lexicographic
order, embedded as insertion sort. -/
def pySorted (l : List String) : List String := List.insertionSort sLe l

/-- `pathlib.Path(p).suffix` scan: walks the reversed path, returning the
final extension with its dot, or `[]` when the last component has none. -/
def suffixAux (acc : List Char) : List Char → List Char
  | [] => []
  | c :: cs =>
    if c == '/' then []
    else if c == '.' then
      match acc, cs with
      | [], _ => []
      | _, [] => []
      | _, d :: _ => if d == '/' then [] else '.' :: acc
    else suffixAux (c :: acc) cs

/-- `pathlib.Path(p).suffix`: the extension of the final component, with its
leading dot, or the empty string. -/
def pySuffix (p : String) : String := ⟨suffixAux [] p.data.reverse⟩

/-- The observable effects of one agent invocation, in order. -/
inductive Effect where
  | printOut (s : String)
  | printErr (s : String)
  | exitCode (n : Nat)
  | apiCall (content : String)
  | writeFile (path : String) (text : String)
deriving DecidableEq

/-- Outcome of a `run_*` pipeline: either an early return with a message
(no service call), or a dispatch to the external service with the assembled
context. -/
inductive ReviewStep where
  | early (msg : String)
  | dispatch (ctx : String)
deriving DecidableEq

/-- Result of one subprocess invocation (`subprocess.run` with captured
output): exit code, captured stdout, captured stderr. -/
structure ProcResult where
  exitCode : Nat
  stdout : String
  stderr : String

namespace GoArchitect

/-- `go_architect.read_file`: fenced content block on success, inline error
block on failure. -/
def read_file (fs : FileSystem) (filepath : String) : String :=
  match readFS fs filepath with
  | Except.ok content =>
      "### File: " ++ filepath ++ "\n```go\n" ++ content ++ "\n```\n"
  | Except.error e =>
      "### File: " ++ filepath ++ "\nError reading file: " ++ e ++ "\n"

/-- `go_architect.find_go_files`: all walked paths matching `*.go` without
the `_test.go` marker, sorted. -/
def find_go_files (fs : FileSystem) : List String :=
  pySorted ((fsPaths fs).filter
    (fun p => pyEndsWith p ".go" && !(strHas p "_test.go")))

/-- `go_architect.find_api_specs`: yaml/yml/json paths whose lowercase form
mentions openapi or swagger, plus a root `openapi.yaml` when present. -/
def find_api_specs (fs : FileSystem) : List String :=
  let isSpec := fun (p : String) =>
    strHas p.toLower "openapi" || strHas p.toLower "swagger"
  let specs :=
    ((fsPaths fs).filter (fun p => pyEndsWith p ".yaml" && isSpec p)) ++
    ((fsPaths fs).filter (fun p => pyEndsWith p ".yml" && isSpec p)) ++
    ((fsPaths fs).filter (fun p => pyEndsWith p ".json" && isSpec p))
  if pathExists fs "openapi.yaml" && !(specs.contains "openapi.yaml") then
    specs ++ ["openapi.yaml"]
  else specs

/-- The inline rendering of one API-spec file in `go_architect.run_review`:
fence tag taken from the extension, same error block shape on failure. -/
def spec_block (fs : FileSystem) (spec : String) : String :=
  match readFS fs spec with
  | Except.ok content =>
      "### File: " ++ spec ++ "\n```" ++ (pySuffix spec).drop 1 ++ "\n" ++
        content ++ "\n```\n"
  | Except.error e =>
      "### File: " ++ spec ++ "\nError reading file: " ++ e ++ "\n"

/-- The `if files: ... else: find_go_files()` selection in
`go_architect.run_review` (an empty or missing list falls back to the
directory walk, matching Python truthiness). -/
def selectFiles (fs : FileSystem) (files : Option (List String)) :
    List String :=
  match files with
  | some (f :: fl) => (f :: fl).filter (fun g => pyEndsWith g ".go")
  | _ => find_go_files fs

/-- `go_architect.run_review` up to the external call: early message or
dispatched context. -/
def run_review (fs : FileSystem) (files : Option (List String)) :
    ReviewStep :=
  let go_files := selectFiles fs files
  if go_files.isEmpty then ReviewStep.early "No Go files found to review."
  else
    let code_context :=
      "# Code to Review\n\n" ++ String.join (go_files.map (read_file fs))
    let specs := find_api_specs fs
    let code_context :=
      if !specs.isEmpty then
        code_context ++ "\n# API Specifications\n\n" ++
          String.join (specs.map (spec_block fs))
      else code_context
    ReviewStep.dispatch code_context

/-- `go_architect.main` as an effect trace: credential check, banner,
review, output routing. `resp` models the external service's reply to the
dispatched user content. -/
def main (keySet : Bool) (fs : FileSystem) (files : Option (List String))
    (output : Option String) (resp : String → String) : List Effect :=
  if !keySet then
    [Effect.printOut "Error: ANTHROPIC_API_KEY environment variable not set",
     Effect.exitCode 1]
  else
    let step := run_review fs files
    let callFx := match step with
      | ReviewStep.early _ => []
      | ReviewStep.dispatch ctx =>
          [Effect.apiCall
            ("Please review the following Go API code for architectural best practices:\n\n"
              ++ ctx)]
    let review := match step with
      | ReviewStep.early m => m
      | ReviewStep.dispatch ctx =>
          resp ("Please review the following Go API code for architectural best practices:\n\n"
            ++ ctx)
    Effect.printErr "Running Go Architecture Review...\n" :: callFx ++
      (match output with
       | some p =>
          [Effect.writeFile p review,
           Effect.printErr ("Review written to " ++ p)]
       | none => [Effect.printOut review])

end GoArchitect

namespace GoTester

/-- `go_tester.read_file`: identical shape to the architect's renderer. -/
def read_file (fs : FileSystem) (filepath : String) : String :=
  match readFS fs filepath with
  | Except.ok content =>
      "### File: " ++ filepath ++ "\n```go\n" ++ content ++ "\n```\n"
  | Except.error e =>
      "### File: " ++ filepath ++ "\nError reading file: " ++ e ++ "\n"

/-- `go_tester.find_go_files`: `*.go` paths without the `_test.go` marker,
sorted. -/
def find_go_files (fs : FileSystem) : List String :=
  pySorted ((fsPaths fs).filter
    (fun p => pyEndsWith p ".go" && !(strHas p "_test.go")))

/-- `go_tester.find_test_files`: `*_test.go` paths, sorted. -/
def find_test_files (fs : FileSystem) : List String :=
  pySorted ((fsPaths fs).filter (fun p => pyEndsWith p "_test.go"))

/-- The `if files: ...` selection in `go_tester.run_test_generation`: the
explicit list keeps `.go` entries without the `_test.go` marker; an empty or
missing list falls back to the directory walk. -/
def selectFiles (fs : FileSystem) (files : Option (List String)) :
    List String :=
  match files with
  | some (f :: fl) =>
      (f :: fl).filter (fun g => pyEndsWith g ".go" && !(strHas g "_test.go"))
  | _ => find_go_files fs

/-- `go_tester.run_test_generation` up to the external call. -/
def run_test_generation (fs : FileSystem) (files : Option (List String)) :
    ReviewStep :=
  let go_files := selectFiles fs files
  if go_files.isEmpty then
    ReviewStep.early "No Go files found to generate tests for."
  else
    let code_context :=
      "# Source Code to Test\n\n" ++ String.join (go_files.map (read_file fs))
    let existing := find_test_files fs
    let code_context :=
      if !existing.isEmpty then
        code_context ++ "\n# Existing Tests (for reference)\n\n" ++
          String.join (existing.map (read_file fs))
      else code_context
    ReviewStep.dispatch code_context

/-- `go_tester.main` as an effect trace. -/
def main (keySet : Bool) (fs : FileSystem) (files : Option (List String))
    (output : Option String) (resp : String → String) : List Effect :=
  if !keySet then
    [Effect.printOut "Error: ANTHROPIC_API_KEY environment variable not set",
     Effect.exitCode 1]
  else
    let step := run_test_generation fs files
    let userOf := fun (ctx : String) =>
      "Please generate comprehensive tests for the following Go code:\n\n" ++
        ctx ++ "\n\nProvide complete, runnable test files."
    let callFx := match step with
      | ReviewStep.early _ => []
      | ReviewStep.dispatch ctx => [Effect.apiCall (userOf ctx)]
    let tests := match step with
      | ReviewStep.early m => m
      | ReviewStep.dispatch ctx => resp (userOf ctx)
    Effect.printErr "Generating Go Tests...\n" :: callFx ++
      (match output with
       | some p =>
          [Effect.writeFile p tests,
           Effect.printErr ("Tests written to " ++ p)]
       | none => [Effect.printOut tests])

end GoTester

namespace GoReviewer

/-- `go_engineer_reviewer.read_file`: identical shape to the architect's
renderer. -/
def read_file (fs : FileSystem) (filepath : String) : String :=
  match readFS fs filepath with
  | Except.ok content =>
      "### File: " ++ filepath ++ "\n```go\n" ++ content ++ "\n```\n"
  | Except.error e =>
      "### File: " ++ filepath ++ "\nError reading file: " ++ e ++ "\n"

/-- `go_engineer_reviewer.get_git_diff`: the diff's stdout on exit 0, an
inline error string embedding the captured stderr otherwise. -/
def get_git_diff (r : ProcResult) : String :=
  if r.exitCode = 0 then r.stdout
  else "Error getting git diff: " ++ r.stderr

/-- `go_engineer_reviewer.get_changed_files`: stripped non-empty lines of
the name-only diff's stdout on exit 0, the empty list otherwise. -/
def get_changed_files (r : ProcResult) : List String :=
  if r.exitCode = 0 then
    ((pySplitNL (pyStrip r.stdout)).map pyStrip).filter (fun f => f ≠ "")
  else []

/-- `go_engineer_reviewer.find_go_files`: every `*.go` path, sorted — this
agent does not exclude `_test.go` paths. -/
def find_go_files (fs : FileSystem) : List String :=
  pySorted ((fsPaths fs).filter (fun p => pyEndsWith p ".go"))

/-- The `if files: ...` selection in the non-diff branch of
`go_engineer_reviewer.run_review`. -/
def selectFiles (fs : FileSystem) (files : Option (List String)) :
    List String :=
  match files with
  | some (f :: fl) => (f :: fl).filter (fun g => pyEndsWith g ".go")
  | _ => find_go_files fs

/-- `go_engineer_reviewer.run_review` up to the external call. `gitDiff` and
`gitNames` are the results of the two git subprocess invocations. -/
def run_review (fs : FileSystem) (gitDiff gitNames : ProcResult)
    (files : Option (List String)) (use_diff : Bool) (base : String) :
    ReviewStep :=
  if use_diff then
    let diff := get_git_diff gitDiff
    if diff = "" ∨ pyStartsWith diff "Error" = true then
      ReviewStep.early ("No changes to review or error: " ++ diff)
    else
      let code_context :=
        "# Git Diff (against " ++ base ++ ")\n\n```diff\n" ++ diff ++
          "\n```\n"
      let changed_files := get_changed_files gitNames
      let code_context :=
        if !changed_files.isEmpty then
          code_context ++ "\n# Full Files (for context)\n\n" ++
            String.join (changed_files.map
              (fun p => if pathExists fs p then read_file fs p else ""))
        else code_context
      ReviewStep.dispatch code_context
  else
    let go_files := selectFiles fs files
    if go_files.isEmpty then ReviewStep.early "No Go files found to review."
    else
      ReviewStep.dispatch
        ("# Code to Review\n\n" ++ String.join (go_files.map (read_file fs)))

/-- `go_engineer_reviewer.main` as an effect trace. -/
def main (keySet : Bool) (fs : FileSystem) (gitDiff gitNames : ProcResult)
    (files : Option (List String)) (use_diff : Bool) (base : String)
    (output : Option String) (resp : String → String) : List Effect :=
  if !keySet then
    [Effect.printOut "Error: ANTHROPIC_API_KEY environment variable not set",
     Effect.exitCode 1]
  else
    let step := run_review fs gitDiff gitNames files use_diff base
    let userOf := fun (ctx : String) =>
      "Please conduct a thorough code review:\n\n" ++ ctx
    let callFx := match step with
      | ReviewStep.early _ => []
      | ReviewStep.dispatch ctx => [Effect.apiCall (userOf ctx)]
    let review := match step with
      | ReviewStep.early m => m
      | ReviewStep.dispatch ctx => resp (userOf ctx)
    Effect.printErr "Running Go Code Review...\n" :: callFx ++
      (match output with
       | some p =>
          [Effect.writeFile p review,
           Effect.printErr ("Review written to " ++ p)]
       | none => [Effect.printOut review])

end GoReviewer

/-! Concrete fixtures used to instantiate the theorems below. -/

/-- An empty working tree. -/
def fsEmpty : FileSystem := ⟨[]⟩

/-- A tree with a single test-marked Go file. -/
def fsOnlyTest : FileSystem := ⟨[("pkg/a_test.go", Except.ok "package a")]⟩

/-- A tree with no Go files at all. -/
def fsNoGo : FileSystem := ⟨[("README.md", Except.ok "hi")]⟩

/-- The two-file tree of the fixed discovery example, listed in reverse
walk order so sorting is exercised. -/
def fsTwo : FileSystem :=
  ⟨[("b.go", Except.ok "package b"), ("a.go", Except.ok "package a")]⟩

/-- A tree in which `bad.go` exists but reading it raises. -/
def fsMixed : FileSystem :=
  ⟨[("a.go", Except.ok "package a"),
    ("bad.go", Except.error "Permission denied"),
    ("c.go", Except.ok "package c")]⟩

/-- The contents of the readable files of `fsMixed`. -/
def contMixed : String → String :=
  fun f => if f = "a.go" then "package a" else "package c"

/-- A tree holding the two still-existing changed files of the diff
example; `missing.go` is absent. -/
def fsChanged : FileSystem :=
  ⟨[("x.go", Except.ok "package x"), ("y.go", Except.ok "package y")]⟩

/-- A failed git subprocess. -/
def procFail : ProcResult := ⟨128, "", "fatal: bad revision\n"⟩

/-- A successful non-empty `git diff`. -/
def procDiffOk : ProcResult := ⟨0, "diff --git a/x.go b/x.go\n", ""⟩

/-- A successful `git diff --name-only` listing three changed files. -/
def procNamesOk : ProcResult := ⟨0, "x.go\nmissing.go\ny.go\n", ""⟩

/-- The effect trace all three entry points produce when the credential
environment variable is unset: the message goes through a plain `print`
(standard output), then the process exits with code 1. -/
def noKeyTrace : List Effect :=
  [Effect.printOut "Error: ANTHROPIC_API_KEY environment variable not set",
   Effect.exitCode 1]

/-! Helper lemmas about the string primitives, sorting and aggregation. -/

theorem matchFront_append (p s : List Char) : matchFront p (p ++ s) = true := by
  induction p with
  | nil => rfl
  | cons c cs ih => simp [matchFront, ih]

theorem matchFront_refl (l : List Char) : matchFront l l = true := by
  have h := matchFront_append l []
  simpa using h

theorem hasSubL_suffix (a b : List Char) : hasSubL b (a ++ b) = true := by
  induction a with
  | nil =>
    cases b with
    | nil => rfl
    | cons c cs => simp [hasSubL, matchFront_refl]
  | cons c cs ih => simp [hasSubL, ih]

theorem string_data_append (a b : String) : (a ++ b).data = a.data ++ b.data :=
  rfl

theorem strHas_append_right (a b : String) : strHas (a ++ b) b = true := by
  show hasSubL b.data (a ++ b).data = true
  rw [string_data_append]
  exact hasSubL_suffix a.data b.data

theorem pyStartsWith_append (a b : String) : pyStartsWith (a ++ b) a = true := by
  show matchFront a.data (a ++ b).data = true
  rw [string_data_append]
  exact matchFront_append a.data b.data

theorem lexLe_total (a b : List Char) : lexLe a b = true ∨ lexLe b a = true := by
  induction a generalizing b with
  | nil => exact Or.inl rfl
  | cons x xs ih =>
    cases b with
    | nil => exact Or.inr rfl
    | cons y ys =>
      rcases Nat.lt_trichotomy x.toNat y.toNat with h | h | h
      · left
        simp [lexLe, h]
      · rcases ih ys with h' | h'
        · left
          simp [lexLe, h, h', Nat.lt_irrefl]
        · right
          simp [lexLe, h, h', Nat.lt_irrefl]
      · right
        simp [lexLe, h]

theorem lexLe_trans (a b c : List Char) (hab : lexLe a b = true)
    (hbc : lexLe b c = true) : lexLe a c = true := by
  induction a generalizing b c with
  | nil => rfl
  | cons x xs ih =>
    cases b with
    | nil => simp [lexLe] at hab
    | cons y ys =>
      cases c with
      | nil => simp [lexLe] at hbc
      | cons z zs =>
        simp only [lexLe] at hab hbc ⊢
        rcases Nat.lt_trichotomy x.toNat y.toNat with h1 | h1 | h1
        · rcases Nat.lt_trichotomy y.toNat z.toNat with h2 | h2 | h2
          · rw [if_pos (Nat.lt_trans h1 h2)]
          · rw [if_pos (h2 ▸ h1)]
          · rw [if_neg (by omega), if_pos h2] at hbc
            exact Bool.noConfusion hbc
        · rw [if_neg (by omega), if_neg (by omega)] at hab
          rcases Nat.lt_trichotomy y.toNat z.toNat with h2 | h2 | h2
          · rw [if_pos (by omega)]
          · rw [if_neg (by omega), if_neg (by omega)] at hbc
            rw [if_neg (by omega), if_neg (by omega)]
            exact ih ys zs hab hbc
          · rw [if_neg (by omega), if_pos h2] at hbc
            exact Bool.noConfusion hbc
        · rw [if_neg (by omega), if_pos h1] at hab
          exact Bool.noConfusion hab

theorem sLe_total (a b : String) : sLe a b ∨ sLe b a :=
  lexLe_total a.data b.data

theorem sLe_trans (a b c : String) (hab : sLe a b) (hbc : sLe b c) : sLe a c :=
  lexLe_trans a.data b.data c.data hab hbc

theorem pySorted_perm (l : List String) : (pySorted l).Perm l :=
  List.perm_insertionSort sLe l

theorem pySorted_sorted (l : List String) : List.Sorted sLe (pySorted l) := by
  haveI : IsTotal String sLe := ⟨sLe_total⟩
  haveI : IsTrans String sLe := ⟨sLe_trans⟩
  exact List.sorted_insertionSort sLe l

theorem join_cons (s : String) (l : List String) :
    String.join (s :: l) = s ++ String.join l := by
  show List.foldl (· ++ ·) ("" ++ s) l = s ++ String.join l
  have gen : ∀ (l : List String) (a : String),
      List.foldl (· ++ ·) a l = a ++ String.join l := by
    intro l
    induction l with
    | nil =>
      intro a
      show a = a ++ ""
      exact (String.append_empty a).symm
    | cons x xs ih =>
      intro a
      show List.foldl (· ++ ·) (a ++ x) xs = a ++ String.join (x :: xs)
      rw [ih (a ++ x)]
      have : String.join (x :: xs) = x ++ String.join xs := by
        show List.foldl (· ++ ·) ("" ++ x) xs = x ++ String.join xs
        rw [ih ("" ++ x), String.empty_append]
      rw [this, String.append_assoc]
  have h := gen l s
  rw [String.empty_append] at *
  exact h

theorem join_append (as bs : List String) :
    String.join (as ++ bs) = String.join as ++ String.join bs := by
  induction as with
  | nil => simp [String.join, String.empty_append]
  | cons x xs ih =>
    rw [List.cons_append, join_cons, ih, join_cons, String.append_assoc]

theorem filter_and_nil (l : List String) (p q : String → Bool)
    (h : l.filter p = []) : l.filter (fun x => p x && q x) = [] := by
  simp only [List.filter_eq_nil_iff] at h ⊢
  intro a ha hqa
  exact h a ha ((Bool.and_eq_true _ _).mp hqa).1

/-! Claim theorems. -/

/-- C7: for the fixed two-file tree (`a.go` with "package a", `b.go` with
"package b"), directory-mode discovery returns `["a.go", "b.go"]` in that
order and the assembled context is the header followed by the labeled
fenced block of `a.go` and then that of `b.go`. -/
theorem C7_two_file_context :
    GoArchitect.find_go_files fsTwo = ["a.go", "b.go"] ∧
    GoArchitect.run_review fsTwo none = ReviewStep.dispatch
      ("# Code to Review\n\n" ++
       "### File: a.go\n```go\npackage a\n```\n" ++
       "### File: b.go\n```go\npackage b\n```\n") := by
  decide

/-- C2 counterexample: the engineer reviewer's directory-mode discovery
returns a path containing the `_test.go` marker, so the claim that all
three agents exclude such paths is false. -/
theorem C2_counterexample :
    GoReviewer.find_go_files fsOnlyTest = ["pkg/a_test.go"] ∧
    strHas "pkg/a_test.go" "_test.go" = true := by
  decide

/-- C2 amended: the architect's and tester's directory-mode discovery
return exactly the `.go` paths without the `_test.go` marker in
lexicographic order, while the engineer reviewer's returns all `.go`
paths — test files included — in lexicographic order. -/
theorem C2_discovery_modes (fs : FileSystem) :
    (GoArchitect.find_go_files fs).Perm
      ((fsPaths fs).filter
        (fun p => pyEndsWith p ".go" && !(strHas p "_test.go"))) ∧
    List.Sorted sLe (GoArchitect.find_go_files fs) ∧
    GoTester.find_go_files fs = GoArchitect.find_go_files fs ∧
    (GoReviewer.find_go_files fs).Perm
      ((fsPaths fs).filter (fun p => pyEndsWith p ".go")) ∧
    List.Sorted sLe (GoReviewer.find_go_files fs) :=
  ⟨pySorted_perm _, pySorted_sorted _, rfl, pySorted_perm _, pySorted_sorted _⟩

/-- C3 counterexample: the tester's explicit-mode selection drops a
caller-supplied entry that ends in `.go`, so "no additional filtering"
is false for that agent. -/
theorem C3_counterexample :
    GoTester.selectFiles fsEmpty (some ["util_test.go"]) = [] ∧
    pyEndsWith "util_test.go" ".go" = true := by
  decide

/-- C3 amended: for a non-empty caller-supplied list, the architect's and
engineer reviewer's explicit-mode selection return exactly the entries
ending in `.go`, in caller order (a sublist); the tester additionally
drops entries containing the `_test.go` marker. -/
theorem C3_explicit_modes (fs : FileSystem) (f : String) (fl : List String) :
    List.Sublist (GoArchitect.selectFiles fs (some (f :: fl))) (f :: fl) ∧
    (∀ p, p ∈ GoArchitect.selectFiles fs (some (f :: fl)) ↔
      p ∈ f :: fl ∧ pyEndsWith p ".go" = true) ∧
    GoReviewer.selectFiles fs (some (f :: fl)) =
      GoArchitect.selectFiles fs (some (f :: fl)) ∧
    List.Sublist (GoTester.selectFiles fs (some (f :: fl))) (f :: fl) ∧
    (∀ p, p ∈ GoTester.selectFiles fs (some (f :: fl)) ↔
      p ∈ f :: fl ∧ (pyEndsWith p ".go" && !(strHas p "_test.go")) = true) := by
  refine ⟨List.filter_sublist _, fun p => ?_, rfl, List.filter_sublist _,
    fun p => ?_⟩
  · show p ∈ (f :: fl).filter (fun g => pyEndsWith g ".go") ↔ _
    simp [List.mem_filter]
  · show p ∈ (f :: fl).filter
      (fun g => pyEndsWith g ".go" && !(strHas g "_test.go")) ↔ _
    simp [List.mem_filter]

/-- C10: the per-file renderer is total — for every file system and path it
returns the fenced content block on a successful read and the inline error
block otherwise, always a string beginning with the file header; the
tester's renderer is the same function. -/
theorem C10_read_file_total (fs : FileSystem) (p : String) :
    ((∃ c, readFS fs p = Except.ok c ∧
        GoArchitect.read_file fs p =
          "### File: " ++ p ++ "\n```go\n" ++ c ++ "\n```\n") ∨
     (∃ e, readFS fs p = Except.error e ∧
        GoArchitect.read_file fs p =
          "### File: " ++ p ++ "\nError reading file: " ++ e ++ "\n")) ∧
    GoTester.read_file fs p = GoArchitect.read_file fs p ∧
    pyStartsWith (GoArchitect.read_file fs p) ("### File: " ++ p) = true := by
  refine ⟨?_, rfl, ?_⟩
  · cases h : readFS fs p with
    | ok c => exact Or.inl ⟨c, rfl, by simp [GoArchitect.read_file, h]⟩
    | error e => exact Or.inr ⟨e, rfl, by simp [GoArchitect.read_file, h]⟩
  · cases h : readFS fs p with
    | ok c =>
      have hb : GoArchitect.read_file fs p =
          ("### File: " ++ p) ++ ("\n```go\n" ++ (c ++ "\n```\n")) := by
        simp [GoArchitect.read_file, h, String.append_assoc]
      rw [hb]
      exact pyStartsWith_append _ _
    | error e =>
      have hb : GoArchitect.read_file fs p =
          ("### File: " ++ p) ++ ("\nError reading file: " ++ (e ++ "\n")) := by
        simp [GoArchitect.read_file, h, String.append_assoc]
      rw [hb]
      exact pyStartsWith_append _ _

theorem matchFront_extend (p s t : List Char) (h : matchFront p s = true) :
    matchFront p (s ++ t) = true := by
  induction p generalizing s with
  | nil => rfl
  | cons c cs ih =>
    cases s with
    | nil => exact absurd h (by simp [matchFront])
    | cons d ds =>
      simp only [matchFront, Bool.and_eq_true] at h
      simp only [List.cons_append, matchFront, Bool.and_eq_true]
      exact ⟨h.1, ih ds h.2⟩

theorem pyStartsWith_extend (x t a : String) (h : pyStartsWith x a = true) :
    pyStartsWith (x ++ t) a = true := by
  show matchFront a.data (x ++ t).data = true
  rw [string_data_append]
  exact matchFront_extend _ _ _ h

/-- C4 counterexample: with the credential unset, the architect's entry
point emits the error message through a plain `print` — standard output,
not the diagnostic stream — before exiting with code 1. -/
theorem C4_counterexample :
    GoArchitect.main false fsTwo none none (fun _ => "") =
      [Effect.printOut "Error: ANTHROPIC_API_KEY environment variable not set",
       Effect.exitCode 1] := by
  decide

/-- C4 amended: when the credential environment variable is unset, every
agent's entry point prints a human-readable message on standard output
(not the diagnostic stream) and exits with code 1, performing no file
discovery, file write, or network call beforehand. -/
theorem C4_no_key_exit (fs : FileSystem) (files : Option (List String))
    (output : Option String) (resp : String → String)
    (gd gn : ProcResult) (use_diff : Bool) (base : String) :
    GoArchitect.main false fs files output resp = noKeyTrace ∧
    GoTester.main false fs files output resp = noKeyTrace ∧
    GoReviewer.main false fs gd gn files use_diff base output resp =
      noKeyTrace ∧
    (∀ c, Effect.apiCall c ∉ noKeyTrace) ∧
    (∀ p t, Effect.writeFile p t ∉ noKeyTrace) ∧
    (∀ s, Effect.printErr s ∉ noKeyTrace) := by
  refine ⟨rfl, rfl, rfl, ?_, ?_, ?_⟩
  · intro c
    simp [noKeyTrace]
  · intro p t
    simp [noKeyTrace]
  · intro s
    simp [noKeyTrace]

/-- C1 counterexample: in diff mode with a failing git diff, `run_review`
returns early with an inline message — the pipeline does not proceed to
the external-service dispatch step. -/
theorem C1_counterexample :
    GoReviewer.run_review fsEmpty procFail procFail none true "main" =
      ReviewStep.early
        "No changes to review or error: Error getting git diff: fatal: bad revision\n" := by
  decide

/-- C1 amended: in diff mode, whenever the git diff subprocess exits
non-zero, `run_review` returns early — without reaching the dispatch
step — with a message that embeds the command's captured stderr inside
the sentinel error string. -/
theorem C1_diff_error_early (fs : FileSystem) (gd gn : ProcResult)
    (files : Option (List String)) (base : String) (h : gd.exitCode ≠ 0) :
    GoReviewer.run_review fs gd gn files true base =
      ReviewStep.early
        ("No changes to review or error: Error getting git diff: " ++
          gd.stderr) ∧
    strHas
      ("No changes to review or error: Error getting git diff: " ++ gd.stderr)
      gd.stderr = true := by
  have hd : GoReviewer.get_git_diff gd =
      "Error getting git diff: " ++ gd.stderr := by
    simp [GoReviewer.get_git_diff, h]
  have hstart :
      pyStartsWith ("Error getting git diff: " ++ gd.stderr) "Error" = true :=
    pyStartsWith_extend "Error getting git diff: " gd.stderr "Error" (by decide)
  refine ⟨?_, strHas_append_right _ _⟩
  simp only [GoReviewer.run_review, hd, if_true]
  rw [if_pos (Or.inr hstart), ← String.append_assoc]
  rfl

/-- C1 witness: the amended statement instantiated at a concrete failing
subprocess result. -/
theorem C1_witness :
    GoReviewer.run_review fsEmpty procFail procFail none true "main" =
      ReviewStep.early
        ("No changes to review or error: Error getting git diff: " ++
          procFail.stderr) ∧
    strHas
      ("No changes to review or error: Error getting git diff: " ++
        procFail.stderr)
      procFail.stderr = true :=
  C1_diff_error_early fsEmpty procFail procFail none "main" (by decide)

theorem go_filter_nil (l : List String)
    (h : l.filter (fun p => pyEndsWith p ".go") = []) :
    l.filter (fun p => pyEndsWith p ".go" && !(strHas p "_test.go")) = [] := by
  simp only [List.filter_eq_nil_iff] at h ⊢
  intro a ha hq
  exact h a ha ((Bool.and_eq_true _ _).mp hq).1

/-- C6: for a tree with no path matching the `.go` extension filter,
directory-mode discovery is empty, each agent's pipeline returns its
"no files found" message, and no agent's entry point emits an external
service call. -/
theorem C6_no_files (fs : FileSystem) (gd gn : ProcResult) (base : String)
    (output : Option String) (resp : String → String)
    (h : (fsPaths fs).filter (fun p => pyEndsWith p ".go") = []) :
    GoArchitect.find_go_files fs = [] ∧
    GoArchitect.run_review fs none =
      ReviewStep.early "No Go files found to review." ∧
    GoTester.run_test_generation fs none =
      ReviewStep.early "No Go files found to generate tests for." ∧
    GoReviewer.run_review fs gd gn none false base =
      ReviewStep.early "No Go files found to review." ∧
    (∀ c, Effect.apiCall c ∉ GoArchitect.main true fs none output resp) ∧
    (∀ c, Effect.apiCall c ∉ GoTester.main true fs none output resp) ∧
    (∀ c, Effect.apiCall c ∉
      GoReviewer.main true fs gd gn none false base output resp) := by
  have hA : GoArchitect.find_go_files fs = [] := by
    unfold GoArchitect.find_go_files
    rw [go_filter_nil _ h]
    rfl
  have hR : GoReviewer.find_go_files fs = [] := by
    unfold GoReviewer.find_go_files
    rw [h]
    rfl
  have hselA : GoArchitect.selectFiles fs none = [] := hA
  have hselT : GoTester.selectFiles fs none = [] := hA
  have hselR : GoReviewer.selectFiles fs none = [] := hR
  have hrunA : GoArchitect.run_review fs none =
      ReviewStep.early "No Go files found to review." := by
    simp [GoArchitect.run_review, hselA]
  have hrunT : GoTester.run_test_generation fs none =
      ReviewStep.early "No Go files found to generate tests for." := by
    simp [GoTester.run_test_generation, hselT]
  have hrunR : GoReviewer.run_review fs gd gn none false base =
      ReviewStep.early "No Go files found to review." := by
    simp [GoReviewer.run_review, hselR]
  refine ⟨hA, hrunA, hrunT, hrunR, ?_, ?_, ?_⟩
  · intro c
    simp only [GoArchitect.main, Bool.not_true, Bool.false_eq_true, if_false,
      hrunA]
    cases output <;> simp
  · intro c
    simp only [GoTester.main, Bool.not_true, Bool.false_eq_true, if_false,
      hrunT]
    cases output <;> simp
  · intro c
    simp only [GoReviewer.main, Bool.not_true, Bool.false_eq_true, if_false,
      hrunR]
    cases output <;> simp

/-- C6 witness: the statement instantiated at a tree holding only a
markdown file. -/
theorem C6_witness :
    GoArchitect.find_go_files fsNoGo = [] ∧
    GoArchitect.run_review fsNoGo none =
      ReviewStep.early "No Go files found to review." :=
  ⟨(C6_no_files fsNoGo procFail procFail "main" none (fun _ => "")
      (by decide)).1,
   (C6_no_files fsNoGo procFail procFail "main" none (fun _ => "")
      (by decide)).2.1⟩

/-- C5: when exactly one file in an aggregated list is unreadable, the
assembled blob is the full blocks of the files before it, then its own
error block naming its path, then the full blocks of the files after it —
the aggregation never aborts. -/
theorem C5_partial_failure (fs : FileSystem) (l₁ l₂ : List String)
    (b e : String) (cont : String → String)
    (hb : readFS fs b = Except.error e)
    (h₁ : ∀ f ∈ l₁, readFS fs f = Except.ok (cont f))
    (h₂ : ∀ f ∈ l₂, readFS fs f = Except.ok (cont f)) :
    String.join ((l₁ ++ b :: l₂).map (GoArchitect.read_file fs)) =
      String.join (l₁.map (fun f =>
        "### File: " ++ f ++ "\n```go\n" ++ cont f ++ "\n```\n")) ++
      ("### File: " ++ b ++ "\nError reading file: " ++ e ++ "\n") ++
      String.join (l₂.map (fun f =>
        "### File: " ++ f ++ "\n```go\n" ++ cont f ++ "\n```\n")) := by
  have mapOk : ∀ l : List String,
      (∀ f ∈ l, readFS fs f = Except.ok (cont f)) →
      l.map (GoArchitect.read_file fs) =
        l.map (fun f =>
          "### File: " ++ f ++ "\n```go\n" ++ cont f ++ "\n```\n") := by
    intro l hl
    apply List.map_congr_left
    intro f hf
    simp [GoArchitect.read_file, hl f hf]
  have hbblock : GoArchitect.read_file fs b =
      "### File: " ++ b ++ "\nError reading file: " ++ e ++ "\n" := by
    simp [GoArchitect.read_file, hb]
  rw [List.map_append, join_append, List.map_cons, join_cons,
    mapOk l₁ h₁, mapOk l₂ h₂, hbblock, ← String.append_assoc]

/-- C5 witness: the isolation statement instantiated at a tree where
`bad.go` raises on read while its neighbours are readable. -/
theorem C5_witness :
    String.join (((["a.go"] : List String) ++ "bad.go" :: ["c.go"]).map
      (GoArchitect.read_file fsMixed)) =
      String.join ((["a.go"] : List String).map (fun f =>
        "### File: " ++ f ++ "\n```go\n" ++ contMixed f ++ "\n```\n")) ++
      ("### File: " ++ "bad.go" ++ "\nError reading file: " ++
        "Permission denied" ++ "\n") ++
      String.join ((["c.go"] : List String).map (fun f =>
        "### File: " ++ f ++ "\n```go\n" ++ contMixed f ++ "\n```\n")) :=
  C5_partial_failure fsMixed ["a.go"] ["c.go"] "bad.go" "Permission denied"
    contMixed rfl
    (by intro f hf; rw [List.mem_singleton] at hf; subst hf; rfl)
    (by intro f hf; rw [List.mem_singleton] at hf; subst hf; rfl)

/-- C8: each agent's output routing writes the response text verbatim to
the given destination and emits exactly the one-line confirmation on the
diagnostic stream; with no destination it prints the same text to standard
output, writing no file. The trace before routing contains no file write
and no standard-output line. -/
theorem C8_output_router (fs : FileSystem) (files : Option (List String))
    (resp : String → String) (gd gn : ProcResult) (use_diff : Bool)
    (base : String) (p : String) :
    (∃ pre r,
      GoArchitect.main true fs files (some p) resp =
        pre ++ [Effect.writeFile p r,
                Effect.printErr ("Review written to " ++ p)] ∧
      GoArchitect.main true fs files none resp =
        pre ++ [Effect.printOut r] ∧
      (∀ q t, Effect.writeFile q t ∉ pre) ∧
      (∀ s, Effect.printOut s ∉ pre)) ∧
    (∃ pre r,
      GoTester.main true fs files (some p) resp =
        pre ++ [Effect.writeFile p r,
                Effect.printErr ("Tests written to " ++ p)] ∧
      GoTester.main true fs files none resp =
        pre ++ [Effect.printOut r] ∧
      (∀ q t, Effect.writeFile q t ∉ pre) ∧
      (∀ s, Effect.printOut s ∉ pre)) ∧
    (∃ pre r,
      GoReviewer.main true fs gd gn files use_diff base (some p) resp =
        pre ++ [Effect.writeFile p r,
                Effect.printErr ("Review written to " ++ p)] ∧
      GoReviewer.main true fs gd gn files use_diff base none resp =
        pre ++ [Effect.printOut r] ∧
      (∀ q t, Effect.writeFile q t ∉ pre) ∧
      (∀ s, Effect.printOut s ∉ pre)) := by
  refine ⟨?_, ?_, ?_⟩
  · cases hstep : GoArchitect.run_review fs files with
    | early m =>
      refine ⟨[Effect.printErr "Running Go Architecture Review...\n"], m,
        ?_, ?_, ?_, ?_⟩
      · simp [GoArchitect.main, hstep]
      · simp [GoArchitect.main, hstep]
      · intro q t
        simp
      · intro s
        simp
    | dispatch ctx =>
      refine ⟨[Effect.printErr "Running Go Architecture Review...\n",
        Effect.apiCall
          ("Please review the following Go API code for architectural best practices:\n\n"
            ++ ctx)],
        resp
          ("Please review the following Go API code for architectural best practices:\n\n"
            ++ ctx), ?_, ?_, ?_, ?_⟩
      · simp [GoArchitect.main, hstep]
      · simp [GoArchitect.main, hstep]
      · intro q t
        simp
      · intro s
        simp
  · cases hstep : GoTester.run_test_generation fs files with
    | early m =>
      refine ⟨[Effect.printErr "Generating Go Tests...\n"], m, ?_, ?_, ?_, ?_⟩
      · simp [GoTester.main, hstep]
      · simp [GoTester.main, hstep]
      · intro q t
        simp
      · intro s
        simp
    | dispatch ctx =>
      refine ⟨[Effect.printErr "Generating Go Tests...\n",
        Effect.apiCall
          ("Please generate comprehensive tests for the following Go code:\n\n"
            ++ ctx ++ "\n\nProvide complete, runnable test files.")],
        resp
          ("Please generate comprehensive tests for the following Go code:\n\n"
            ++ ctx ++ "\n\nProvide complete, runnable test files."),
        ?_, ?_, ?_, ?_⟩
      · simp [GoTester.main, hstep]
      · simp [GoTester.main, hstep]
      · intro q t
        simp
      · intro s
        simp
  · cases hstep : GoReviewer.run_review fs gd gn files use_diff base with
    | early m =>
      refine ⟨[Effect.printErr "Running Go Code Review...\n"], m,
        ?_, ?_, ?_, ?_⟩
      · simp [GoReviewer.main, hstep]
      · simp [GoReviewer.main, hstep]
      · intro q t
        simp
      · intro s
        simp
    | dispatch ctx =>
      refine ⟨[Effect.printErr "Running Go Code Review...\n",
        Effect.apiCall ("Please conduct a thorough code review:\n\n" ++ ctx)],
        resp ("Please conduct a thorough code review:\n\n" ++ ctx),
        ?_, ?_, ?_, ?_⟩
      · simp [GoReviewer.main, hstep]
      · simp [GoReviewer.main, hstep]
      · intro q t
        simp
      · intro s
        simp

theorem join_changed (fs : FileSystem) (c₁ c₂ : List String) (m : String)
    (hm : pathExists fs m = false)
    (h₁ : ∀ f ∈ c₁, pathExists fs f = true)
    (h₂ : ∀ f ∈ c₂, pathExists fs f = true) :
    String.join ((c₁ ++ m :: c₂).map
      (fun p => if pathExists fs p then GoReviewer.read_file fs p else "")) =
      String.join (c₁.map (GoReviewer.read_file fs)) ++
      String.join (c₂.map (GoReviewer.read_file fs)) := by
  rw [List.map_append, join_append, List.map_cons, join_cons]
  have hg1 : c₁.map
      (fun p => if pathExists fs p then GoReviewer.read_file fs p else "") =
      c₁.map (GoReviewer.read_file fs) := by
    apply List.map_congr_left
    intro f hf
    simp [h₁ f hf]
  have hg2 : c₂.map
      (fun p => if pathExists fs p then GoReviewer.read_file fs p else "") =
      c₂.map (GoReviewer.read_file fs) := by
    apply List.map_congr_left
    intro f hf
    simp [h₂ f hf]
  rw [hg1, hg2]
  simp [hm]

/-- C9: in diff mode with a successful non-empty diff, a changed file that
no longer exists contributes nothing to the appended "Full Files" section
(no error block), while every changed file that exists is rendered as its
labeled block after the diff section. -/
theorem C9_missing_changed_file (fs : FileSystem) (gd gn : ProcResult)
    (base : String) (c₁ c₂ : List String) (m : String)
    (h0 : gd.exitCode = 0) (hne : ¬ gd.stdout = "")
    (herr : pyStartsWith gd.stdout "Error" = false)
    (hch : GoReviewer.get_changed_files gn = c₁ ++ m :: c₂)
    (hm : pathExists fs m = false)
    (h₁ : ∀ f ∈ c₁, pathExists fs f = true)
    (h₂ : ∀ f ∈ c₂, pathExists fs f = true) :
    GoReviewer.run_review fs gd gn none true base = ReviewStep.dispatch
      ("# Git Diff (against " ++ base ++ ")\n\n```diff\n" ++ gd.stdout ++
        "\n```\n" ++ "\n# Full Files (for context)\n\n" ++
       (String.join (c₁.map (GoReviewer.read_file fs)) ++
        String.join (c₂.map (GoReviewer.read_file fs)))) := by
  have hcond : ¬ (gd.stdout = "" ∨ pyStartsWith gd.stdout "Error" = true) := by
    rintro (hc | hc)
    · exact hne hc
    · rw [herr] at hc
      exact Bool.noConfusion hc
  have hd : GoReviewer.get_git_diff gd = gd.stdout := by
    simp [GoReviewer.get_git_diff, h0]
  have hni : (c₁ ++ m :: c₂).isEmpty = false := by
    cases c₁ <;> rfl
  simp only [GoReviewer.run_review, hd, hch, hni, Bool.not_false, if_true]
  rw [if_neg hcond]
  rw [join_changed fs c₁ c₂ m hm h₁ h₂]

/-- C9 witness: the statement instantiated at a concrete successful diff
whose changed files are `x.go`, the absent `missing.go`, and `y.go`. -/
theorem C9_witness :
    GoReviewer.run_review fsChanged procDiffOk procNamesOk none true "main" =
      ReviewStep.dispatch
        ("# Git Diff (against " ++ "main" ++ ")\n\n```diff\n" ++
          procDiffOk.stdout ++ "\n```\n" ++
          "\n# Full Files (for context)\n\n" ++
         (String.join ((["x.go"] : List String).map
            (GoReviewer.read_file fsChanged)) ++
          String.join ((["y.go"] : List String).map
            (GoReviewer.read_file fsChanged)))) :=
  C9_missing_changed_file fsChanged procDiffOk procNamesOk "main"
    ["x.go"] ["y.go"] "missing.go" rfl (by decide) (by decide) (by decide)
    (by decide)
    (by intro f hf; rw [List.mem_singleton] at hf; subst hf; rfl)
    (by intro f hf; rw [List.mem_singleton] at hf; subst hf; rfl)
